import Mathlib

/-!
Verification of the BrainDock session event-logging state machine
(`tracking/session.py`, with the event-kind constants of `config.py`).

Modelling conventions (shallow embedding):
* `datetime` instants are natural numbers (an abstract monotone wall clock);
  each Python call that reads `datetime.now()` is modelled as taking the
  current instant `now` as an explicit argument, and one call is atomic
  (every `datetime.now()` read inside a single method call yields that
  call's `now`).
* Durations (`total_seconds()` of a difference) are exact integers
  `(end : Int) - start`.
* Python truthiness of an `Optional[str]` (`if self.current_state:`) is
  `False` for `None` and for the empty string; an `Optional[datetime]`
  is truthy exactly when it is not `None`.
* `print` side effects carry no state, with one exception: the console
  branch of `log_event` evaluates `config.EVENT_PHONE_SUSPECTED`, an
  attribute `config.py` does not define (it defines
  `EVENT_GADGET_SUSPECTED`), so on a state change with a kind other than
  "away"/"present" the call raises `AttributeError` *after* mutating the
  session.  The mutation is the total function `log_event`; the raise is
  the separate predicate `log_event_raises`.
* Stored events keep their timestamps as the ISO image of the instant;
  since `isoformat` is injective we represent them by the instant itself
  (`Event.start`, `Event.stop` : `Nat`), and serialization renders them
  through `isoformat`.
-/

namespace BrainDock

/-- `config.EVENT_PRESENT` -/
def EVENT_PRESENT : String := "present"

/-- `config.EVENT_AWAY` -/
def EVENT_AWAY : String := "away"

/-- `config.EVENT_GADGET_SUSPECTED` -/
def EVENT_GADGET_SUSPECTED : String := "gadget_suspected"

/-- `config.EVENT_PAUSED` -/
def EVENT_PAUSED : String := "paused"

/-- `config.EVENT_SCREEN_DISTRACTION` -/
def EVENT_SCREEN_DISTRACTION : String := "screen_distraction"

/-- One finalized interval record, the dict built in
`Session._finalize_current_state`:
`{"type": ..., "start": ..., "end": ..., "duration_seconds": ...}`.
The Python dict stores `start`/`end` as ISO strings; we store the instants
(`stop` stands for the dict key `"end"`, a Lean keyword). -/
structure Event where
  type : String
  start : Nat
  stop : Nat
  duration_seconds : Int
  deriving Repr, DecidableEq

/-- The mutable state of a `Session` object (`Session.__init__`). -/
structure Session where
  session_id : String
  start_time : Option Nat
  end_time : Option Nat
  events : List Event
  current_state : Option String
  state_start_time : Option Nat
  deriving Repr, DecidableEq

/-- Python truthiness of an `Optional[str]`: `None` and `""` are falsy. -/
def pyTruthy : Option String → Bool
  | none => false
  | some s => !(s == "")

namespace Session

/-- `Session.__init__(session_id=sid)`: `self.session_id = session_id or
self._generate_session_id()` (so `None` and `""` fall back to the
generated id `genId`), every other attribute starts empty. -/
def init (sid : Option String) (genId : String) : Session :=
  { session_id := match sid with
      | none => genId
      | some s => if s = "" then genId else s
    start_time := none
    end_time := none
    events := []
    current_state := none
    state_start_time := none }

/-- `Session.start()` at instant `now`: sets `start_time = now`,
`current_state = EVENT_PRESENT`, `state_start_time = start_time`. -/
def start (s : Session) (now : Nat) : Session :=
  { s with start_time := some now
           current_state := some EVENT_PRESENT
           state_start_time := some now }

/-- `Session._finalize_current_state()` at instant `now`: returns early
when `current_state` or `state_start_time` is falsy, otherwise appends
`{type: current_state, start: state_start_time, end: now,
duration_seconds: now - state_start_time}` to `events`. -/
def finalize_current_state (s : Session) (now : Nat) : Session :=
  match s.current_state, s.state_start_time with
  | some c, some u =>
      if c = "" then s
      else { s with
               events := s.events ++
                 [{ type := c, start := u, stop := now,
                    duration_seconds := (now : Int) - (u : Int) }] }
  | _, _ => s

/-- `Session.log_event(event_type, timestamp)` at instant `now`
(`timestamp=None` is `ts = none`, defaulting to `now`): on a state change
(`event_type != current_state`) it finalizes the open interval when
`current_state` and `state_start_time` are truthy, then sets
`current_state = event_type` and `state_start_time = timestamp`. -/
def log_event (s : Session) (event_type : String) (ts : Option Nat)
    (now : Nat) : Session :=
  let timestamp := ts.getD now
  if s.current_state = some event_type then s
  else
    let s1 := if pyTruthy s.current_state && s.state_start_time.isSome
              then s.finalize_current_state now else s
    { s1 with current_state := some event_type
              state_start_time := some timestamp }

/-- Whether `Session.log_event(event_type, ...)` raises: its console
branch evaluates `config.EVENT_PHONE_SUSPECTED` — missing from
`config.py` — whenever a state change happens with a kind that is neither
`EVENT_AWAY` nor `EVENT_PRESENT`, raising `AttributeError` (after the
state mutation of `log_event` has already happened). -/
def log_event_raises (s : Session) (event_type : String) : Bool :=
  !(s.current_state == some event_type) &&
    !(event_type == EVENT_AWAY) && !(event_type == EVENT_PRESENT)

/-- `Session.end()` at instant `now`: sets `end_time = now`, then
finalizes the open interval when `current_state` and `state_start_time`
are truthy (the remaining body only formats a console message). -/
def end' (s : Session) (now : Nat) : Session :=
  let s1 : Session := { s with end_time := some now }
  if pyTruthy s1.current_state && s1.state_start_time.isSome
  then s1.finalize_current_state now else s1

/-- `Session.get_duration()` at instant `now`: `0` when the session never
started, otherwise `(end_time or now) - start_time` in seconds. -/
def get_duration (s : Session) (now : Nat) : Int :=
  match s.start_time with
  | none => 0
  | some t0 => ((s.end_time.getD now : Nat) : Int) - (t0 : Int)

end Session

/-! ### ISO-8601 timestamps

`datetime.isoformat` renders an instant injectively as a string and
`datetime.fromisoformat` parses that string back; with instants modelled
as `Nat` we realize the pair concretely as decimal rendering/parsing and
prove the round trip, capturing that `fromisoformat` is a left inverse of
`isoformat` on `datetime` values. -/

/-- Little-endian decimal digits of a natural number (`0` has none). -/
def toDigitsLE : Nat → List Nat
  | 0 => []
  | n + 1 => ((n + 1) % 10) :: toDigitsLE ((n + 1) / 10)
decreasing_by exact Nat.div_lt_self (Nat.succ_pos n) (by omega)

/-- The character for the decimal digit `d` (code point 48 is `0`). -/
def digitChar (d : Nat) : Char :=
  Char.ofNat (48 + d)

/-- Digit value of a character, `none` on a non-digit. -/
def charDigit? (c : Char) : Option Nat :=
  if 48 ≤ c.toNat ∧ c.toNat ≤ 57 then some (c.toNat - 48) else none

/-- `datetime.isoformat()` on the instant `t` (decimal rendering). -/
def isoformat (t : Nat) : String :=
  match t with
  | 0 => "0"
  | n + 1 => String.mk (((toDigitsLE (n + 1)).reverse).map digitChar)

/-- `datetime.fromisoformat(s)`: parses the rendering back, `none`
(a raised `ValueError`) on anything that is not a nonempty digit string. -/
def fromisoformat (s : String) : Option Nat :=
  match s.data.mapM charDigit? with
  | none => none
  | some ds => if ds.isEmpty then none
               else some (ds.foldl (fun a d => a * 10 + d) 0)

/-! ### JSON documents

`json.dump`/`json.load` round-trip the document exactly for the strings
and integers used here, so the saved file is modelled by the document
itself. -/

/-- A JSON value as produced by `json.dump`/`json.load`. -/
inductive JVal where
  | null : JVal
  | str (s : String) : JVal
  | num (n : Int) : JVal
  | arr (xs : List JVal) : JVal
  | obj (fields : List (String × JVal)) : JVal
  deriving Repr

/-- `data[key]` on a JSON object: `none` models a raised `KeyError` (or
indexing a non-object). -/
def jget (j : JVal) (key : String) : Option JVal :=
  match j with
  | JVal.obj fields =>
      match fields.find? (fun kv => kv.1 == key) with
      | some kv => some kv.2
      | none => none
  | _ => none

/-- Python truthiness of a JSON-loaded value. -/
def jTruthy : JVal → Bool
  | JVal.null => false
  | JVal.str s => !(s == "")
  | JVal.num n => !(n == 0)
  | JVal.arr xs => !xs.isEmpty
  | JVal.obj fields => !fields.isEmpty

/-- The serialized form of one event dict: `start`/`end` are the ISO
strings the dict already holds in memory. -/
def encodeEvent (e : Event) : JVal :=
  JVal.obj [("type", JVal.str e.type),
            ("start", JVal.str (isoformat e.start)),
            ("end", JVal.str (isoformat e.stop)),
            ("duration_seconds", JVal.num e.duration_seconds)]

/-- Reading one event dict back into the model's representation (the
Python `load` keeps the dicts verbatim; decoding is the change of
representation from ISO strings to instants). -/
def decodeEvent (j : JVal) : Option Event :=
  match jget j "type", jget j "start", jget j "end",
        jget j "duration_seconds" with
  | some (JVal.str ty), some (JVal.str st), some (JVal.str en),
    some (JVal.num d) =>
      match fromisoformat st, fromisoformat en with
      | some u, some v =>
          some { type := ty, start := u, stop := v, duration_seconds := d }
      | _, _ => none
  | _, _, _, _ => none

namespace Session

/-- `Session.to_dict()` at instant `now` (the `get_duration()` call reads
the clock when `end_time` is unset). -/
def to_dict (s : Session) (now : Nat) : JVal :=
  JVal.obj [("session_id", JVal.str s.session_id),
            ("start_time",
              match s.start_time with
              | some t => JVal.str (isoformat t)
              | none => JVal.null),
            ("end_time",
              match s.end_time with
              | some t => JVal.str (isoformat t)
              | none => JVal.null),
            ("duration_seconds", JVal.num (s.get_duration now)),
            ("events", JVal.arr (s.events.map encodeEvent))]

/-- `Session.save(directory)` at instant `now`: writes `to_dict()` as the
JSON file; the file's content is the document. -/
def save (s : Session) (now : Nat) : JVal :=
  s.to_dict now

/-- The `if data[k]: ... fromisoformat(data[k])` idiom of `Session.load`:
a falsy stored value leaves the timestamp unset, a truthy one must be a
parseable string (otherwise `fromisoformat` raises, modelled `none`). -/
def parseOptTime (v : JVal) : Option (Option Nat) :=
  if jTruthy v then
    match v with
    | JVal.str t => (fromisoformat t).map some
    | _ => none
  else some none

/-- `Session.load(filepath)` on the document `j`; `genId` is the id
`_generate_session_id()` would produce (used when the stored id is
falsy, through `__init__`'s `session_id or ...`).  `none` models a
raised exception (`KeyError`, `ValueError` from `fromisoformat`, ...). -/
def load (j : JVal) (genId : String) : Option Session :=
  match jget j "session_id" with
  | some (JVal.str sid) =>
      (jget j "start_time").bind fun v1 =>
      (parseOptTime v1).bind fun st =>
      (jget j "end_time").bind fun v2 =>
      (parseOptTime v2).bind fun en =>
      (jget j "events").bind fun ev =>
      match ev with
      | JVal.arr xs =>
          (xs.mapM decodeEvent).map fun evs =>
            { Session.init (some sid) genId with
              start_time := st, end_time := en, events := evs }
      | _ => none
  | _ => none

end Session

/-! ### Call sequences

A client interaction is a sequence of method calls, each carrying the
wall-clock instant at which it happens. -/

/-- One public mutating call on a `Session`. -/
inductive Op where
  | start (now : Nat) : Op
  | log (kind : String) (ts : Option Nat) (now : Nat) : Op
  | stop (now : Nat) : Op
  deriving Repr, DecidableEq

/-- Execute one call. -/
def applyOp (s : Session) : Op → Session
  | Op.start now => s.start now
  | Op.log kind ts now => s.log_event kind ts now
  | Op.stop now => s.end' now

/-- Execute a sequence of calls. -/
def run (s : Session) (ops : List Op) : Session :=
  ops.foldl applyOp s

/-- Execute a sequence of `log_event(kind)` calls with defaulted
timestamps, `kt.2` being the clock instant of the call (the shape of the
detection loop's calls in `gui/app.py`). -/
def runLogs (s : Session) (logs : List (String × Nat)) : Session :=
  logs.foldl (fun s kt => s.log_event kt.1 none kt.2) s

/-- Execute a sequence of `log_event(kind, timestamp)` calls, each with
an optional explicit timestamp and its clock instant. -/
def runLogsT (s : Session) (logs : List (String × Option Nat × Nat)) :
    Session :=
  logs.foldl (fun s kt => s.log_event kt.1 kt.2.1 kt.2.2) s

/-- Number of kind *changes* in a call sequence, relative to the state
current when each call is made. -/
def countChanges (c : Option String) : List String → Nat
  | [] => 0
  | k :: ks =>
      if c = some k then countChanges c ks
      else countChanges (some k) ks + 1

/-- The (kind, opening instant) of every interval that is ever open
during `start` + the given defaulted-timestamp `log_event` calls:
the interval open at entry plus one per kind change. -/
def openedFrom (c : String) (t : Nat) : List (String × Nat) → List (String × Nat)
  | [] => [(c, t)]
  | (k, u) :: rest =>
      if k = c then openedFrom c t rest
      else (c, t) :: openedFrom k u rest

/-- `isPartition a es b`: the intervals of `es` tile `[a, b]` with no gap,
no overlap and no dangling end. -/
def isPartition : Nat → List Event → Nat → Bool
  | a, [], b => a == b
  | a, e :: es, b => (e.start == a) && isPartition e.stop es b

/-! ### Round-trip lemmas for the timestamp rendering -/

theorem charDigit?_digitChar (d : Nat) (h : d < 10) :
    charDigit? (digitChar d) = some d := by
  interval_cases d <;> rfl

theorem toDigitsLE_digits_lt (n : Nat) : ∀ d ∈ toDigitsLE n, d < 10 := by
  induction n using Nat.strong_induction_on with
  | _ n ih =>
    match n with
    | 0 => simp [toDigitsLE]
    | m + 1 =>
      rw [toDigitsLE]
      intro d hd
      rcases List.mem_cons.mp hd with h | h
      · subst h; exact Nat.mod_lt _ (by omega)
      · exact ih ((m + 1) / 10) (Nat.div_lt_self (Nat.succ_pos m) (by omega)) d h

theorem valLE_toDigitsLE (n : Nat) :
    (toDigitsLE n).foldr (fun d acc => d + 10 * acc) 0 = n := by
  induction n using Nat.strong_induction_on with
  | _ n ih =>
    match n with
    | 0 => simp [toDigitsLE]
    | m + 1 =>
      rw [toDigitsLE]
      simp only [List.foldr_cons]
      rw [ih ((m + 1) / 10) (Nat.div_lt_self (Nat.succ_pos m) (by omega))]
      omega

theorem foldl_reverse_val (l : List Nat) :
    l.reverse.foldl (fun a d => a * 10 + d) 0 =
      l.foldr (fun d acc => d + 10 * acc) 0 := by
  induction l with
  | nil => rfl
  | cons d l ih =>
    simp only [List.reverse_cons, List.foldl_append, List.foldr_cons, ih,
      List.foldl_cons, List.foldl_nil]
    ring

theorem mapM_charDigit?_map_digitChar (l : List Nat) (h : ∀ d ∈ l, d < 10) :
    (l.map digitChar).mapM charDigit? = some l := by
  induction l with
  | nil => rfl
  | cons d l ih =>
    simp only [List.map_cons, List.mapM_cons,
      charDigit?_digitChar d (h d (List.mem_cons_self d l)),
      ih (fun x hx => h x (List.mem_cons_of_mem d hx)),
      Option.bind_eq_bind, Option.some_bind, Option.map_some]
    rfl

theorem toDigitsLE_ne_nil (m : Nat) : toDigitsLE (m + 1) ≠ [] := by
  rw [toDigitsLE]; exact List.cons_ne_nil _ _

theorem isoformat_ne_empty (t : Nat) : isoformat t ≠ "" := by
  match t with
  | 0 => decide
  | m + 1 =>
    intro h
    have hd : (toDigitsLE (m + 1)).reverse.map digitChar = ([] : List Char) :=
      congrArg String.data h
    simp only [List.map_eq_nil_iff, List.reverse_eq_nil_iff] at hd
    exact toDigitsLE_ne_nil m hd

theorem fromisoformat_isoformat (t : Nat) :
    fromisoformat (isoformat t) = some t := by
  match t with
  | 0 => rfl
  | m + 1 =>
    have hlt : ∀ d ∈ (toDigitsLE (m + 1)).reverse, d < 10 := by
      intro d hd
      exact toDigitsLE_digits_lt (m + 1) d (List.mem_reverse.mp hd)
    have hne : (toDigitsLE (m + 1)).reverse ≠ [] := by
      simp only [ne_eq, List.reverse_eq_nil_iff]
      exact toDigitsLE_ne_nil m
    simp only [fromisoformat, isoformat, String.mk,
      mapM_charDigit?_map_digitChar _ hlt]
    rw [if_neg (by simpa [List.isEmpty_iff] using hne)]
    rw [foldl_reverse_val, valLE_toDigitsLE]

/-! ### Basic behavioural lemmas about the operations -/

namespace Session

theorem log_event_same (s : Session) (kind : String) (ts : Option Nat)
    (now : Nat) (h : s.current_state = some kind) :
    s.log_event kind ts now = s := by
  simp [log_event, h]

theorem log_event_change (s : Session) (kind : String) (ts : Option Nat)
    (now : Nat) (c : String) (u : Nat) (hc : s.current_state = some c)
    (hne : c ≠ "") (hu : s.state_start_time = some u) (hk : kind ≠ c) :
    s.log_event kind ts now =
      { s with
          events := s.events ++
            [{ type := c, start := u, stop := now,
               duration_seconds := (now : Int) - (u : Int) }],
          current_state := some kind,
          state_start_time := some (ts.getD now) } := by
  have hck : ¬(c = kind) := fun h => hk h.symm
  simp [log_event, hc, hu, pyTruthy, finalize_current_state, hne, hck]

theorem log_event_fresh (s : Session) (kind : String) (ts : Option Nat)
    (now : Nat) (h : s.current_state = none) :
    s.log_event kind ts now =
      { s with current_state := some kind,
               state_start_time := some (ts.getD now) } := by
  simp [log_event, h, pyTruthy]

theorem end'_open (s : Session) (now : Nat) (c : String) (u : Nat)
    (hc : s.current_state = some c) (hne : c ≠ "")
    (hu : s.state_start_time = some u) :
    s.end' now =
      { s with
          end_time := some now,
          events := s.events ++
            [{ type := c, start := u, stop := now,
               duration_seconds := (now : Int) - (u : Int) }] } := by
  simp [end', pyTruthy, hc, hu, finalize_current_state, hne]

theorem log_event_fields (s : Session) (kind : String) (ts : Option Nat)
    (now : Nat) :
    (s.log_event kind ts now).session_id = s.session_id ∧
    (s.log_event kind ts now).start_time = s.start_time ∧
    (s.log_event kind ts now).end_time = s.end_time := by
  unfold log_event
  by_cases h : s.current_state = some kind
  · simp [h]
  · by_cases h2 : pyTruthy s.current_state && s.state_start_time.isSome
    · simp only [h, if_false, h2, if_true]
      unfold finalize_current_state
      cases hc : s.current_state <;> cases hu : s.state_start_time <;>
        (simp [hc, hu]; try (split <;> simp))
    · simp [h, h2]

end Session

/-- Which events a single call can add: none, or exactly one finalized
record whose `duration_seconds` is its `end` minus its `start`. -/
theorem events_finalize (s : Session) (now : Nat) :
    (s.finalize_current_state now).events = s.events ∨
    ∃ c u, (s.finalize_current_state now).events =
      s.events ++ [{ type := c, start := u, stop := now,
                     duration_seconds := (now : Int) - (u : Int) }] := by
  unfold Session.finalize_current_state
  cases hc : s.current_state with
  | none => left; rfl
  | some c =>
    cases hu : s.state_start_time with
    | none => left; rfl
    | some u =>
      by_cases hce : c = ""
      · left; simp [hce]
      · right; exact ⟨c, u, by simp [hce]⟩

theorem events_applyOp (s : Session) (op : Op) :
    (applyOp s op).events = s.events ∨
    ∃ c u now, (applyOp s op).events =
      s.events ++ [{ type := c, start := u, stop := now,
                     duration_seconds := (now : Int) - (u : Int) }] := by
  cases op with
  | start now => left; rfl
  | log kind ts now =>
    simp only [applyOp]
    unfold Session.log_event
    by_cases h : s.current_state = some kind
    · left; simp [h]
    · by_cases h2 : pyTruthy s.current_state && s.state_start_time.isSome
      · simp only [h, if_false, h2, if_true]
        rcases events_finalize s now with h3 | ⟨c, u, h3⟩
        · left; exact h3
        · right; exact ⟨c, u, now, h3⟩
      · left; simp [h, h2]
  | stop now =>
    simp only [applyOp]
    unfold Session.end'
    by_cases h2 : pyTruthy s.current_state && s.state_start_time.isSome
    · simp only [h2, if_true]
      rcases events_finalize { s with end_time := some now } now
        with h3 | ⟨c, u, h3⟩
      · left; exact h3
      · right; exact ⟨c, u, now, h3⟩
    · left; simp [h2]

/-- Every event ever present in `events` along any run stays internally
consistent: `duration_seconds` is exactly `end - start`. -/
theorem wf_run (ops : List Op) :
    ∀ s : Session,
    (∀ e ∈ s.events, e.duration_seconds = (e.stop : Int) - (e.start : Int)) →
    ∀ e ∈ (run s ops).events,
      e.duration_seconds = (e.stop : Int) - (e.start : Int) := by
  induction ops with
  | nil => intro s h; simpa [run] using h
  | cons op ops ih =>
    intro s h
    show ∀ e ∈ (run (applyOp s op) ops).events, _
    apply ih
    rcases events_applyOp s op with h1 | ⟨c, u, now, h1⟩
    · rw [h1]; exact h
    · rw [h1]
      intro e he
      rcases List.mem_append.mp he with h2 | h2
      · exact h e h2
      · simp only [List.mem_singleton] at h2
        subst h2; rfl

/-- Event-count bookkeeping for an arbitrary sequence of `log_event`
calls on a session whose current state is a nonempty kind. -/
theorem runLogsT_length (logs : List (String × Option Nat × Nat)) :
    ∀ (s : Session) (c : String), s.current_state = some c → c ≠ "" →
    s.state_start_time.isSome = true →
    (∀ k ∈ logs.map (fun kt => kt.1), k ≠ "") →
    (runLogsT s logs).events.length =
      s.events.length + countChanges (some c) (logs.map fun kt => kt.1) := by
  induction logs with
  | nil => intro s c _ _ _ _; simp [runLogsT, countChanges]
  | cons kt logs ih =>
    intro s c hc hne hs hk
    obtain ⟨k, ts, now⟩ := kt
    have hktail : ∀ k' ∈ logs.map (fun kt => kt.1), k' ≠ "" := by
      intro k' hk'
      exact hk k' (by simp only [List.map_cons, List.mem_cons]; right; exact hk')
    show (runLogsT (s.log_event k ts now) logs).events.length = _
    by_cases hkc : c = k
    · subst hkc
      rw [Session.log_event_same s c ts now hc]
      rw [ih s c hc hne hs hktail]
      simp [countChanges]
    · obtain ⟨u, hu⟩ := Option.isSome_iff_exists.mp hs
      have hchange := Session.log_event_change s k ts now c u hc hne hu
        (fun h => hkc h.symm)
      rw [hchange]
      have hkne : k ≠ "" := hk k (by simp)
      rw [ih { s with
            events := s.events ++
              [{ type := c, start := u, stop := now,
                 duration_seconds := (now : Int) - (u : Int) }],
            current_state := some k,
            state_start_time := some (ts.getD now) } k rfl hkne rfl hktail]
      have : ¬ (some c = some k) := by
        intro h; exact hkc (Option.some_injective _ h)
      simp only [List.map_cons, countChanges, this, if_false,
        List.length_append, List.length_cons, List.length_nil]
      omega

/-- Strict chains stay chains when their first link is skipped. -/
theorem chain_lt_drop {u t : Nat} {l : List Nat}
    (h : List.Chain (· < ·) u (t :: l)) : List.Chain (· < ·) u l := by
  cases l with
  | nil => exact List.Chain.nil
  | cons v l' =>
    rcases List.chain_cons.mp h with ⟨hut, h2⟩
    rcases List.chain_cons.mp h2 with ⟨htv, h3⟩
    exact List.chain_cons.mpr ⟨lt_trans hut htv, h3⟩

/-- Appending an interval that starts where the tiling stopped extends
the tiling to that interval's end. -/
theorem isPartition_snoc (a u : Nat) (es : List Event) (e : Event)
    (h : isPartition a es u = true) (hs : e.start = u) :
    isPartition a (es ++ [e]) e.stop = true := by
  induction es generalizing a with
  | nil =>
    simp only [isPartition, beq_iff_eq] at h
    subst h
    simp [isPartition, hs]
  | cons e' es ih =>
    simp only [isPartition, Bool.and_eq_true, beq_iff_eq] at h
    simp only [List.cons_append, isPartition, Bool.and_eq_true, beq_iff_eq]
    exact ⟨h.1, ih e'.stop h.2⟩

/-- A stored ISO timestamp string is truthy (never empty). -/
theorem jTruthy_isoformat (t : Nat) : jTruthy (JVal.str (isoformat t)) = true := by
  have h : (isoformat t == "") = false :=
    beq_eq_false_iff_ne.mpr (isoformat_ne_empty t)
  simp [jTruthy, h]

theorem decodeEvent_encodeEvent (e : Event) :
    decodeEvent (encodeEvent e) = some e := by
  simp [decodeEvent, encodeEvent, jget, List.find?, fromisoformat_isoformat]

theorem mapM_loop_decodeEvent_encodeEvent (es : List Event)
    (acc : List Event) :
    List.mapM.loop decodeEvent (es.map encodeEvent) acc
      = some (acc.reverse ++ es) := by
  induction es generalizing acc with
  | nil => simp [List.mapM.loop]
  | cons e es ih =>
    simp [List.mapM.loop, decodeEvent_encodeEvent, ih]

theorem mapM_decodeEvent_encodeEvent (es : List Event) :
    (es.map encodeEvent).mapM decodeEvent = some es := by
  have h := mapM_loop_decodeEvent_encodeEvent es []
  simpa [List.mapM] using h

theorem runLogs_nil (s : Session) : runLogs s [] = s := rfl

theorem runLogs_cons (s : Session) (k : String) (t : Nat)
    (logs : List (String × Nat)) :
    runLogs s ((k, t) :: logs) = runLogs (s.log_event k none t) logs := rfl

/-- Main invariant for `start` + defaulted-timestamp `log_event` calls +
`end` under a strictly increasing wall clock and nonempty kinds: the
final `events` tile the session span, have positive durations, and list
exactly the intervals that were ever open, in order. -/
theorem runLogs_end_partition (logs : List (String × Nat)) :
    ∀ (s : Session) (a : Nat) (c : String) (u : Nat) (tend : Nat),
    s.current_state = some c → c ≠ "" → s.state_start_time = some u →
    List.Chain (· < ·) u (logs.map Prod.snd ++ [tend]) →
    (∀ k ∈ logs.map Prod.fst, k ≠ "") →
    isPartition a s.events u = true →
    (∀ e ∈ s.events, 0 < e.duration_seconds) →
    isPartition a ((runLogs s logs).end' tend).events tend = true ∧
    (∀ e ∈ ((runLogs s logs).end' tend).events, 0 < e.duration_seconds) ∧
    ((runLogs s logs).end' tend).events.map (fun e => (e.type, e.start))
      = s.events.map (fun e => (e.type, e.start)) ++ openedFrom c u logs := by
  induction logs with
  | nil =>
    intro s a c u tend hc hne hu hchain hk hpart hpos
    simp only [List.map_nil, List.nil_append] at hchain
    have hlt : u < tend := (List.chain_cons.mp hchain).1
    have hend := Session.end'_open s tend c u hc hne hu
    rw [runLogs_nil, hend]
    refine ⟨isPartition_snoc a u s.events _ hpart rfl, ?_, ?_⟩
    · intro e he
      rcases List.mem_append.mp he with h1 | h1
      · exact hpos e h1
      · simp only [List.mem_singleton] at h1
        subst h1
        simp only []
        omega
    · simp [openedFrom]
  | cons kt logs ih =>
    intro s a c u tend hc hne hu hchain hk hpart hpos
    obtain ⟨k, t⟩ := kt
    simp only [List.map_cons, List.cons_append] at hchain
    have hut : u < t := (List.chain_cons.mp hchain).1
    have hchain' : List.Chain (· < ·) t (logs.map Prod.snd ++ [tend]) :=
      (List.chain_cons.mp hchain).2
    have hktail : ∀ k' ∈ logs.map Prod.fst, k' ≠ "" := by
      intro k' hk'
      exact hk k' (by simp only [List.map_cons, List.mem_cons]; right; exact hk')
    rw [runLogs_cons]
    by_cases hkc : c = k
    · subst hkc
      rw [Session.log_event_same s c none t hc]
      have hres := ih s a c u tend hc hne hu (chain_lt_drop hchain) hktail
        hpart hpos
      refine ⟨hres.1, hres.2.1, ?_⟩
      rw [hres.2.2]
      simp [openedFrom]
    · have hck : ¬(k = c) := fun h => hkc h.symm
      have hchange := Session.log_event_change s k none t c u hc hne hu hck
      rw [hchange]
      have hkne : k ≠ "" := hk k (by simp)
      have hpart' :
          isPartition a (s.events ++
            [{ type := c, start := u, stop := t,
               duration_seconds := (t : Int) - (u : Int) }]) t = true :=
        isPartition_snoc a u s.events _ hpart rfl
      have hpos' : ∀ e ∈ s.events ++
          [{ type := c, start := u, stop := t,
             duration_seconds := (t : Int) - (u : Int) }],
          0 < e.duration_seconds := by
        intro e he
        rcases List.mem_append.mp he with h1 | h1
        · exact hpos e h1
        · simp only [List.mem_singleton] at h1
          subst h1
          simp only []
          omega
      have hres := ih { s with
          events := s.events ++
            [{ type := c, start := u, stop := t,
               duration_seconds := (t : Int) - (u : Int) }],
          current_state := some k,
          state_start_time := some ((none : Option Nat).getD t) }
        a k t tend rfl hkne rfl hchain' hktail hpart' hpos'
      refine ⟨hres.1, hres.2.1, ?_⟩
      rw [hres.2.2]
      simp [openedFrom, hck, List.map_append]

/-! ## The claims -/

/-- C1 counterexample: on a started session (`current_state = "present"`
open since instant 0), `log_event("away", timestamp=5)` executed when the
clock reads 10 appends an interval whose `end` is 10 — the current time
`_finalize_current_state` reads from `datetime.now()` — not the supplied
timestamp 5, contradicting the claim that the open interval is finalized
using the supplied timestamp. -/
theorem C1_counterexample :
    ((⟨"s", some 0, none, [], some "present", some 0⟩ : Session).log_event
        "away" (some 5) 10).events
      = [⟨"present", 0, 10, 10⟩] ∧
    ¬ ((⟨"s", some 0, none, [], some "present", some 0⟩ : Session).log_event
        "away" (some 5) 10).events
      = [⟨"present", 0, 5, 5⟩] := by decide

/-- C1 (amended): for every started session and every call
`log_event(kind, timestamp)` with `kind` different from `current_state`,
the open interval is finalized using the *current time of the call*:
`{type: current_state, start: state_start_time, end: now,
duration_seconds: now - state_start_time}` is appended to `events`, and
then `current_state` becomes `kind` and `state_start_time` becomes the
supplied `timestamp` (which defaults to `now`, in which case this
coincides with the original claim). -/
theorem C1_amended_finalized_at_current_time (s : Session) (kind : String)
    (ts : Option Nat) (now : Nat) (c : String) (u : Nat)
    (hc : s.current_state = some c) (hne : c ≠ "")
    (hu : s.state_start_time = some u) (hk : kind ≠ c) :
    s.log_event kind ts now =
      { s with
          events := s.events ++
            [{ type := c, start := u, stop := now,
               duration_seconds := (now : Int) - (u : Int) }],
          current_state := some kind,
          state_start_time := some (ts.getD now) } :=
  Session.log_event_change s kind ts now c u hc hne hu hk

/-- Witness for the amended C1 at a concrete started session. -/
theorem C1_amended_witness :
    ((⟨"s", some 0, none, [], some "present", some 0⟩ : Session).current_state
        = some "present" ∧ "present" ≠ "" ∧
      (⟨"s", some 0, none, [], some "present", some 0⟩ : Session).state_start_time
        = some 0 ∧ "away" ≠ "present") ∧
    ((⟨"s", some 0, none, [], some "present", some 0⟩ : Session).log_event
        "away" (some 5) 10
      = ⟨"s", some 0, none, [⟨"present", 0, 10, 10⟩], some "away", some 5⟩) := by
  refine ⟨⟨rfl, by decide, rfl, by decide⟩, ?_⟩
  exact (C1_amended_finalized_at_current_time
    ⟨"s", some 0, none, [], some "present", some 0⟩ "away" (some 5) 10
    "present" 0 rfl (by decide) rfl (by decide)).trans (by decide)

/-- C6: a `log_event(kind, timestamp)` call with `kind` equal to
`current_state` is a complete no-op — the session record (so `events`,
`current_state`, `state_start_time`, `start_time`, `end_time`) is
unchanged, and the call does not raise. -/
theorem C6_log_event_same_state_is_noop (s : Session) (kind : String)
    (ts : Option Nat) (now : Nat) (h : s.current_state = some kind) :
    s.log_event kind ts now = s ∧ s.log_event_raises kind = false := by
  refine ⟨Session.log_event_same s kind ts now h, ?_⟩
  simp [Session.log_event_raises, h]

/-- Witness for C6 at a concrete started session. -/
theorem C6_witness :
    (⟨"s", some 0, none, [], some "present", some 0⟩ : Session).current_state
        = some "present" ∧
    ((⟨"s", some 0, none, [], some "present", some 0⟩ : Session).log_event
        "present" none 3
      = ⟨"s", some 0, none, [], some "present", some 0⟩ ∧
     (⟨"s", some 0, none, [], some "present", some 0⟩ : Session).log_event_raises
        "present" = false) :=
  ⟨rfl, C6_log_event_same_state_is_noop
    ⟨"s", some 0, none, [], some "present", some 0⟩ "present" none 3 rfl⟩

/-- C7 counterexample: on the session obtained by `start()` at 0 and
`end()` at 5 (so `end_time` is set), a later `log_event("away")` at 7
appends another interval to `events`, and a later `start()` at 9 changes
`start_time` — the object is not read-only after `end()`. -/
theorem C7_counterexample :
    (((Session.init (some "s") "g").start 0).end' 5).end_time = some 5 ∧
    ((((Session.init (some "s") "g").start 0).end' 5).log_event
        "away" none 7).events
      ≠ (((Session.init (some "s") "g").start 0).end' 5).events ∧
    ((((Session.init (some "s") "g").start 0).end' 5).start 9).start_time
      ≠ (((Session.init (some "s") "g").start 0).end' 5).start_time := by
  decide

/-- C7 (amended): after `end()` the object is *not* read-only.
`log_event` still preserves `session_id`, `start_time` and `end_time`,
but on a kind change (with the usual truthiness guards) it appends a
further finalized interval to `events` and moves `current_state`;
`start()` preserves `session_id`, `end_time` and `events` but resets
`start_time`, `current_state` and `state_start_time`. -/
theorem C7_amended_not_readonly_after_end (s : Session) (te : Nat)
    (h : s.end_time = some te) (kind : String) (ts : Option Nat)
    (now : Nat) :
    ((s.log_event kind ts now).session_id = s.session_id ∧
     (s.log_event kind ts now).start_time = s.start_time ∧
     (s.log_event kind ts now).end_time = some te) ∧
    ((s.start now).session_id = s.session_id ∧
     (s.start now).end_time = some te ∧
     (s.start now).events = s.events ∧
     (s.start now).start_time = some now ∧
     (s.start now).current_state = some EVENT_PRESENT ∧
     (s.start now).state_start_time = some now) ∧
    (∀ c u, s.current_state = some c → c ≠ "" →
      s.state_start_time = some u → kind ≠ c →
      (s.log_event kind ts now).events = s.events ++
        [{ type := c, start := u, stop := now,
           duration_seconds := (now : Int) - (u : Int) }] ∧
      (s.log_event kind ts now).current_state = some kind) := by
  refine ⟨⟨(Session.log_event_fields s kind ts now).1,
          (Session.log_event_fields s kind ts now).2.1,
          by rw [(Session.log_event_fields s kind ts now).2.2, h]⟩,
        ⟨rfl, by simp [Session.start, h], rfl, rfl, rfl, rfl⟩, ?_⟩
  intro c u hc hne hu hk
  rw [Session.log_event_change s kind ts now c u hc hne hu hk]
  exact ⟨rfl, rfl⟩

/-- Witness for the amended C7 at a concrete ended session. -/
theorem C7_amended_witness :
    (⟨"s", some 0, some 5, [⟨"present", 0, 5, 5⟩], some "present",
        some 0⟩ : Session).end_time = some 5 ∧
    ((⟨"s", some 0, some 5, [⟨"present", 0, 5, 5⟩], some "present",
        some 0⟩ : Session).log_event "away" none 7).events
      = [⟨"present", 0, 5, 5⟩, ⟨"present", 0, 7, 7⟩] := by
  refine ⟨rfl, ?_⟩
  have h := (C7_amended_not_readonly_after_end
    ⟨"s", some 0, some 5, [⟨"present", 0, 5, 5⟩], some "present", some 0⟩
    5 rfl "away" none 7).2.2 "present" 0 rfl (by decide) rfl (by decide)
  rw [h.1]
  decide

/-- C8 counterexample: on a never-started session, `log_event("away")`
and `end()` each change the session state (the former sets
`current_state`/`state_start_time`, the latter sets `end_time`), so they
are not no-ops. -/
theorem C8_counterexample :
    (Session.init (some "s") "g").log_event "away" none 5
      ≠ Session.init (some "s") "g" ∧
    (Session.init (some "s") "g").end' 5 ≠ Session.init (some "s") "g" := by
  decide

/-- C8 (amended): on a never-started session, `log_event` and `end()` are
guarded by the local emptiness checks so that nothing is ever appended to
`events` and `start_time` stays unset, but they are not full no-ops:
`log_event(kind, timestamp)` sets `current_state = kind` and
`state_start_time = timestamp`, and `end()` sets `end_time`.  Moreover
`log_event` does not raise only for the kinds `"away"`/`"present"`: for
any other kind its console branch evaluates the missing
`config.EVENT_PHONE_SUSPECTED` and raises `AttributeError`. -/
theorem C8_amended_prestart_calls (sid : Option String) (genId : String)
    (kind : String) (ts : Option Nat) (now now' : Nat) :
    ((Session.init sid genId).log_event kind ts now).events = [] ∧
    ((Session.init sid genId).log_event kind ts now).start_time = none ∧
    (Session.init sid genId).log_event kind ts now =
      { Session.init sid genId with
          current_state := some kind,
          state_start_time := some (ts.getD now) } ∧
    (Session.init sid genId).end' now' =
      { Session.init sid genId with end_time := some now' } ∧
    (Session.init sid genId).log_event_raises kind =
      (!(kind == EVENT_AWAY) && !(kind == EVENT_PRESENT)) := by
  have h := Session.log_event_fresh (Session.init sid genId) kind ts now rfl
  refine ⟨by rw [h]; rfl, by rw [h]; rfl, h, ?_, ?_⟩
  · simp [Session.end', Session.init, pyTruthy]
  · simp [Session.log_event_raises, Session.init]

/-- C9: `get_duration()` returns `(end_time or now) - start_time` in
seconds when `start_time` is set and `0` when the session was never
started; a freshly constructed (never-started) session has
`get_duration() == 0` and `events == []`. -/
theorem C9_get_duration_spec (s : Session) (now : Nat) (sid : Option String)
    (genId : String) :
    (s.start_time = none → s.get_duration now = 0) ∧
    (∀ t0, s.start_time = some t0 →
      s.get_duration now = ((s.end_time.getD now : Nat) : Int) - (t0 : Int)) ∧
    (Session.init sid genId).get_duration now = 0 ∧
    (Session.init sid genId).events = [] := by
  refine ⟨?_, ?_, rfl, rfl⟩
  · intro h; simp [Session.get_duration, h]
  · intro t0 h; simp [Session.get_duration, h]

/-- Witness for C9 on never-started and started-and-ended sessions. -/
theorem C9_witness :
    ((⟨"s", none, none, [], none, none⟩ : Session).start_time = none ∧
     (⟨"s", none, none, [], none, none⟩ : Session).get_duration 5 = 0) ∧
    ((⟨"s", some 2, some 7, [], none, none⟩ : Session).start_time = some 2 ∧
     (⟨"s", some 2, some 7, [], none, none⟩ : Session).get_duration 9 = 5) := by
  constructor
  · exact ⟨rfl, (C9_get_duration_spec ⟨"s", none, none, [], none, none⟩
      5 none "g").1 rfl⟩
  · refine ⟨rfl, ?_⟩
    have h := (C9_get_duration_spec ⟨"s", some 2, some 7, [], none, none⟩
      9 none "g").2.1 2 rfl
    simpa using h

/-- C2: for `start()` at `t0` → `log_event(AWAY)` at `t1` → `end()` at
`t2` on a fresh session, with the wall clock having advanced between
`start` and the log call, `events` has exactly the two entries: a
PRESENT interval of positive duration, then an AWAY interval whose `end`
equals `session.end_time`. -/
theorem C2_start_away_end (sid : Option String) (genId : String)
    (t0 t1 t2 : Nat) (h01 : t0 < t1) :
    ((((Session.init sid genId).start t0).log_event EVENT_AWAY none
        t1).end' t2).events
      = [{ type := EVENT_PRESENT, start := t0, stop := t1,
           duration_seconds := (t1 : Int) - (t0 : Int) },
         { type := EVENT_AWAY, start := t1, stop := t2,
           duration_seconds := (t2 : Int) - (t1 : Int) }] ∧
    0 < (t1 : Int) - (t0 : Int) ∧
    ((((Session.init sid genId).start t0).log_event EVENT_AWAY none
        t1).end' t2).end_time = some t2 := by
  have h1 := Session.log_event_change ((Session.init sid genId).start t0)
    EVENT_AWAY none t1 EVENT_PRESENT t0 rfl (by decide) rfl (by decide)
  rw [h1]
  rw [Session.end'_open _ t2 EVENT_AWAY t1 rfl (by decide) rfl]
  refine ⟨?_, by omega, rfl⟩
  simp [Session.init, Session.start]

/-- Witness for C2 at the concrete instants 0, 1, 2. -/
theorem C2_witness :
    (0 : Nat) < 1 ∧
    ((((Session.init (some "s") "g").start 0).log_event EVENT_AWAY none
        1).end' 2).events
      = [{ type := EVENT_PRESENT, start := 0, stop := 1,
           duration_seconds := 1 },
         { type := EVENT_AWAY, start := 1, stop := 2,
           duration_seconds := 1 }] := by
  refine ⟨by decide, ?_⟩
  rw [(C2_start_away_end (some "s") "g" 0 1 2 (by decide)).1]
  decide

/-- C5: for a started session and any sequence of `log_event(kind,
timestamp)` calls with (nonempty) kinds, the length of `events` equals
the number of kind changes relative to the state current at each call,
not the number of calls. -/
theorem C5_events_length_counts_changes (sid : Option String)
    (genId : String) (t0 : Nat)
    (logs : List (String × Option Nat × Nat))
    (hk : ∀ k ∈ logs.map (fun kt => kt.1), k ≠ "") :
    (runLogsT ((Session.init sid genId).start t0) logs).events.length =
      countChanges (some EVENT_PRESENT) (logs.map fun kt => kt.1) := by
  have h := runLogsT_length logs ((Session.init sid genId).start t0)
    EVENT_PRESENT rfl (by decide) rfl hk
  simpa [Session.init, Session.start] using h

/-- Witness for C5: four calls containing two runs of identical kinds
produce two events, one per change. -/
theorem C5_witness :
    (∀ k ∈ ([("away", (none : Option Nat), 1), ("away", none, 2),
             ("present", none, 3), ("present", none, 4)].map
        (fun kt => kt.1)), k ≠ "") ∧
    (runLogsT ((Session.init (some "s") "g").start 0)
        [("away", none, 1), ("away", none, 2), ("present", none, 3),
         ("present", none, 4)]).events.length = 2 := by
  refine ⟨by decide, ?_⟩
  rw [C5_events_length_counts_changes (some "s") "g" 0 _ (by decide)]
  decide

/-- C10: every record appended to `events` is internally consistent —
`_finalize_current_state` appends exactly the record whose `type` is the
`current_state` at the moment of finalization, whose `start` is
`state_start_time`, whose `end` is the finalization instant, and whose
`duration_seconds` equals `end - start`; and along every run of calls
from a fresh session, every record in `events` satisfies
`duration_seconds = end - start`. -/
theorem C10_event_records_consistent :
    (∀ (s : Session) (now : Nat) (c : String) (u : Nat),
      s.current_state = some c → c ≠ "" → s.state_start_time = some u →
      (s.finalize_current_state now).events = s.events ++
        [{ type := c, start := u, stop := now,
           duration_seconds := (now : Int) - (u : Int) }]) ∧
    (∀ (sid : Option String) (genId : String) (ops : List Op) (e : Event),
      e ∈ (run (Session.init sid genId) ops).events →
      e.duration_seconds = (e.stop : Int) - (e.start : Int)) := by
  constructor
  · intro s now c u hc hne hu
    simp [Session.finalize_current_state, hc, hu, hne]
  · intro sid genId ops e he
    exact wf_run ops (Session.init sid genId) (by simp [Session.init]) e he

/-- Witness for C10 on a concrete finalization and a concrete run. -/
theorem C10_witness :
    ((⟨"s", some 0, none, [], some "present", some 0⟩ :
        Session).finalize_current_state 4).events
      = [{ type := "present", start := 0, stop := 4,
           duration_seconds := 4 }] ∧
    (∀ e ∈ (run (Session.init (some "s") "g")
        [Op.start 0, Op.log "away" none 1, Op.stop 2]).events,
      e.duration_seconds = (e.stop : Int) - (e.start : Int)) := by
  constructor
  · have h := C10_event_records_consistent.1
      ⟨"s", some 0, none, [], some "present", some 0⟩ 4 "present" 0
      rfl (by decide) rfl
    rw [h]; decide
  · intro e he
    exact C10_event_records_consistent.2 (some "s") "g"
      [Op.start 0, Op.log "away" none 1, Op.stop 2] e he

/-- C3: after `start()`, any sequence of `log_event(kind)` calls (as the
detection loop makes them: defaulted timestamps, nonempty kinds) under a
strictly increasing wall clock, and a single `end()`, `events` contains
no zero-length (indeed no non-positive) interval, and every interval that
was ever open — and only those, each exactly once, in order — has been
finalized into `events`, whose records tile `[start, end]` with no
dangling open interval left over. -/
theorem C3_every_open_interval_finalized_once (sid : Option String)
    (genId : String) (t0 : Nat) (logs : List (String × Nat)) (tend : Nat)
    (hchain : List.Chain (· < ·) t0 (logs.map Prod.snd ++ [tend]))
    (hk : ∀ k ∈ logs.map Prod.fst, k ≠ "") :
    (∀ e ∈ ((runLogs ((Session.init sid genId).start t0) logs).end'
        tend).events, 0 < e.duration_seconds) ∧
    isPartition t0
      ((runLogs ((Session.init sid genId).start t0) logs).end' tend).events
      tend = true ∧
    ((runLogs ((Session.init sid genId).start t0) logs).end' tend).events.map
        (fun e => (e.type, e.start))
      = openedFrom EVENT_PRESENT t0 logs := by
  have h := runLogs_end_partition logs ((Session.init sid genId).start t0)
    t0 EVENT_PRESENT t0 tend rfl (by decide) rfl hchain hk
    (by simp [Session.init, Session.start, isPartition])
    (by simp [Session.init, Session.start])
  refine ⟨h.2.1, h.1, ?_⟩
  have h3 := h.2.2
  simpa [Session.init, Session.start] using h3

/-- Witness for C3 on a concrete four-call run. -/
theorem C3_witness :
    (List.Chain (· < ·) 0
        ([("away", 1), ("away", 2), ("present", 3)].map Prod.snd ++ [4]) ∧
     ∀ k ∈ [("away", 1), ("away", 2), ("present", 3)].map Prod.fst,
        k ≠ "") ∧
    isPartition 0
      ((runLogs ((Session.init (some "s") "g").start 0)
          [("away", 1), ("away", 2), ("present", 3)]).end' 4).events
      4 = true := by
  refine ⟨⟨by norm_num [List.chain_cons], by decide⟩, ?_⟩
  exact (C3_every_open_interval_finalized_once (some "s") "g" 0
    [("away", 1), ("away", 2), ("present", 3)] 4
    (by norm_num [List.chain_cons]) (by decide)).2.1

/-- C4: `Session.load` applied to the JSON document `save()` writes
reconstructs a session with identical `session_id`, `start_time`,
`end_time` and `events` (timestamps surviving the ISO-8601 render/parse,
optional timestamps surviving the null/truthiness handling, events
surviving verbatim).  The hypothesis `session_id ≠ ""` holds for every
session the class can construct, since `__init__` replaces a falsy id by
the generated one. -/
theorem C4_save_load_roundtrip (s : Session) (now : Nat) (genId : String)
    (h : s.session_id ≠ "") :
    ∃ s2, Session.load (s.save now) genId = some s2 ∧
      s2.session_id = s.session_id ∧ s2.start_time = s.start_time ∧
      s2.end_time = s.end_time ∧ s2.events = s.events := by
  obtain ⟨sid, st, en, evs, cs, sst⟩ := s
  have h' : ¬(sid = "") := h
  refine ⟨⟨sid, st, en, evs, none, none⟩, ?_, rfl, rfl, rfl, rfl⟩
  cases st <;> cases en <;>
    simp [Session.load, Session.save, Session.to_dict, jget, List.find?,
      Session.parseOptTime, jTruthy, jTruthy_isoformat, isoformat_ne_empty,
      fromisoformat_isoformat, mapM_loop_decodeEvent_encodeEvent,
      mapM_decodeEvent_encodeEvent, Session.init, h']

/-- Witness for C4 on a concrete ended two-interval session. -/
theorem C4_witness :
    ("s" : String) ≠ "" ∧
    ∃ s2, Session.load (Session.save ⟨"s", some 3, some 9,
        [⟨"present", 3, 7, 4⟩, ⟨"away", 7, 9, 2⟩], none, none⟩ 9)
        "gen" = some s2 ∧
      s2.session_id = "s" ∧ s2.start_time = some 3 ∧
      s2.end_time = some 9 ∧
      s2.events = [⟨"present", 3, 7, 4⟩, ⟨"away", 7, 9, 2⟩] :=
  ⟨by decide, C4_save_load_roundtrip
    ⟨"s", some 3, some 9, [⟨"present", 3, 7, 4⟩, ⟨"away", 7, 9, 2⟩],
      none, none⟩ 9 "gen" (by decide)⟩

end BrainDock
